import Mathlib

/-!
Verification of the string-to-parameter cascade and the document
persistence service.

Shallow embedding of the parameter-parsing cascade
(`StringInputToolWrapper._parseStringToJson` in `src/tools/react-tool-adapter.js`),
the naming utility (`src/utils/formatter.js`) and the document persistence
service (`SaveDocumentTool._call` in `src/tools/analysis-tools.js`).

JavaScript values are modelled by `JsValue`; numbers are represented by their
source literal (no claim below compares numeric values).  JavaScript strings
are modelled by `String`, regular-expression matching by explicit scanning
functions over `List Char` that mirror the backtracking behaviour of the
concrete regexes appearing in the source.  Exceptions are modelled by
`Except`.  The file system is an association list from paths to file
contents.  Wall-clock time is threaded explicitly: `Date.now()` becomes a
`Nat` parameter, `new Date()` becomes a `JsDate` parameter.
-/

namespace Spec2Proof

/-! ## JavaScript character classes and string primitives -/

/-- Whitespace for JavaScript `String.prototype.trim` and the regex class
`\s`: ASCII whitespace plus no-break space and BOM (the further Unicode
space characters do not occur in any input considered here). -/
def jsWsChar (c : Char) : Bool :=
  c = ' ' || c = '\t' || c = '\n' || c = '\r' ||
  c = '\x0b' || c = '\x0c' || c = ' ' || c = '﻿'

/-- Whitespace accepted by `JSON.parse` (JSON grammar): space, tab, LF, CR. -/
def jsonWsChar (c : Char) : Bool :=
  c = ' ' || c = '\t' || c = '\n' || c = '\r'

/-- The regex class `\w`: ASCII letters, digits and underscore. -/
def wordChar (c : Char) : Bool :=
  (('a' ≤ c && c ≤ 'z') || ('A' ≤ c && c ≤ 'Z') || ('0' ≤ c && c ≤ '9') || c = '_')

def asciiDigit (c : Char) : Bool := '0' ≤ c && c ≤ '9'

/-- ASCII lower-casing, as performed by `String.prototype.toLowerCase`
on the inputs occurring here. -/
def jsLowerChar (c : Char) : Char :=
  if 'A' ≤ c && c ≤ 'Z' then Char.ofNat (c.toNat + 32) else c

def jsToLower (s : String) : String := String.mk (s.data.map jsLowerChar)

/-- Drop trailing characters satisfying `p`. -/
def dropTrailing (p : Char → Bool) (cs : List Char) : List Char :=
  (cs.reverse.dropWhile p).reverse

/-- JavaScript `String.prototype.trim`. -/
def jsTrim (s : String) : String :=
  String.mk (dropTrailing jsWsChar (s.data.dropWhile jsWsChar))

/-- `String.prototype.startsWith`. -/
def jsStartsWith (s pre : String) : Bool := pre.data.isPrefixOf s.data

/-- `String.prototype.endsWith`. -/
def jsEndsWith (s suf : String) : Bool :=
  suf.data.reverse.isPrefixOf s.data.reverse

/-- JavaScript `String.prototype.substring`, which clamps both indices to
the string length and swaps them when `a > b`. -/
def jsSubstring (s : String) (a b : Nat) : String :=
  let n := s.data.length
  let a := min a n
  let b := min b n
  let lo := min a b
  let hi := max a b
  String.mk ((s.data.take hi).drop lo)

/-! ## JavaScript values -/

/-- A JavaScript value as far as the adapter and the tools observe it.
Numbers carry their source literal. -/
inductive JsValue : Type where
  | null : JsValue
  | undefined : JsValue
  | bool (b : Bool) : JsValue
  | num (lit : String) : JsValue
  | str (s : String) : JsValue
  | arr (elems : List JsValue) : JsValue
  | obj (fields : List (String × JsValue)) : JsValue

/-- Association-list lookup of a property (first binding wins, as JS
objects hold one binding per key). -/
def jsGet : List (String × JsValue) → String → Option JsValue
  | [], _ => none
  | (k, v) :: rest, key => if k = key then some v else jsGet rest key

/-- JavaScript property read `o.key`: `undefined` when absent. -/
def getField (o : List (String × JsValue)) (key : String) : JsValue :=
  (jsGet o key).getD .undefined

/-- JavaScript property write `o[key] = v`: update in place when the key
exists, append otherwise. -/
def setField : List (String × JsValue) → String → JsValue → List (String × JsValue)
  | [], key, v => [(key, v)]
  | (k, w) :: rest, key, v =>
    if k = key then (k, v) :: rest else (k, w) :: setField rest key v

/-- Is `Number()` of this literal falsy (zero)?  The literals appearing
here come from `JSON.parse` (decimal JSON numbers) or from the key-value
coercion (decimals, `Infinity`, hex/octal/binary, with optional sign):
`Infinity` is never zero; a hex/octal/binary literal is zero exactly
when every digit after the prefix is `0`; a decimal literal is zero
exactly when its mantissa (before any exponent) has no nonzero decimal
digit.  (No literal produced in this development denotes NaN.) -/
def numLitIsZero (lit : String) : Bool :=
  let decimalZero (u : List Char) : Bool :=
    (u.takeWhile fun c => c ≠ 'e' && c ≠ 'E').all fun c =>
      !(asciiDigit c) || c = '0'
  let t := (jsTrim lit).data
  let u := match t with
    | '+' :: r => r
    | '-' :: r => r
    | _ => t
  match u with
  | 'I' :: _ => false
  | '0' :: x :: r =>
    if x = 'x' || x = 'X' || x = 'o' || x = 'O' || x = 'b' || x = 'B' then
      r.all fun c => c = '0'
    else decimalZero u
  | _ => decimalZero u

/-- JavaScript truthiness (`!x` is its negation): `null`, `undefined`,
`false`, the empty string and the number zero are falsy; every object,
array, non-empty string, `true` and nonzero number — including
`Infinity` and nonzero hex values — is truthy. -/
def truthy : JsValue → Bool
  | .null => false
  | .undefined => false
  | .bool b => b
  | .num lit => !numLitIsZero lit
  | .str s => s ≠ ""
  | .arr _ => true
  | .obj _ => true

def JsValue.isObj : JsValue → Bool
  | .obj _ => true
  | _ => false

/-! ## `JSON.parse` -/

/-- One JSON escape sequence after a backslash; returns the denoted
character and the rest.  `\uXXXX` is mapped through `Char.ofNat`
(surrogate pairing is not modelled; no input here uses it). -/
def jsonEscape : List Char → Option (Char × List Char)
  | '"' :: rest => some ('"', rest)
  | '\\' :: rest => some ('\\', rest)
  | '/' :: rest => some ('/', rest)
  | 'b' :: rest => some ('\x08', rest)
  | 'f' :: rest => some ('\x0c', rest)
  | 'n' :: rest => some ('\n', rest)
  | 'r' :: rest => some ('\r', rest)
  | 't' :: rest => some ('\t', rest)
  | 'u' :: a :: b :: c :: d :: rest =>
    let hex? (x : Char) : Option Nat :=
      if asciiDigit x then some (x.toNat - '0'.toNat)
      else if 'a' ≤ x && x ≤ 'f' then some (x.toNat - 'a'.toNat + 10)
      else if 'A' ≤ x && x ≤ 'F' then some (x.toNat - 'A'.toNat + 10)
      else none
    match hex? a, hex? b, hex? c, hex? d with
    | some ha, some hb, some hc, some hd =>
      some (Char.ofNat (((ha * 16 + hb) * 16 + hc) * 16 + hd), rest)
    | _, _, _, _ => none
  | _ => none

/-- The body of a JSON string literal (after the opening quote), with
fuel. -/
def jsonStringBody (fuel : Nat) (cs : List Char) (acc : List Char) :
    Option (String × List Char) :=
  match fuel with
  | 0 => none
  | fuel + 1 =>
    match cs with
    | [] => none
    | c :: rest =>
      if c = '"' then some (String.mk acc.reverse, rest)
      else if c = '\\' then
        match jsonEscape rest with
        | some (e, rest') => jsonStringBody fuel rest' (e :: acc)
        | none => none
      else if c.toNat < 0x20 then none
      else jsonStringBody fuel rest (c :: acc)

/-- A JSON number literal starting at `cs` (JSON grammar: optional minus,
integer part without leading zeros, optional fraction, optional
exponent); returns the literal characters and the rest. -/
def jsonNumberLit (cs : List Char) : Option (List Char × List Char) :=
  let (sign, cs₁) := match cs with
    | '-' :: rest => (['-'], rest)
    | _ => ([], cs)
  match cs₁ with
  | [] => none
  | c :: _ =>
    if !asciiDigit c then none
    else
      let intPart := cs₁.takeWhile asciiDigit
      if intPart.length > 1 && intPart.head? = some '0' then none
      else
        let cs₂ := cs₁.dropWhile asciiDigit
        let (fracPart, cs₃) := match cs₂ with
          | '.' :: rest =>
            let ds := rest.takeWhile asciiDigit
            if ds = [] then ([], cs₂) else ('.' :: ds, rest.dropWhile asciiDigit)
          | _ => ([], cs₂)
        if fracPart = [] && cs₂ ≠ cs₃ then none
        else
          let (expPart, cs₄) := match cs₃ with
            | e :: rest =>
              if e = 'e' || e = 'E' then
                let (es, rest') := match rest with
                  | s :: rest' => if s = '+' || s = '-' then ([e, s], rest') else ([e], rest)
                  | [] => ([e], rest)
                let ds := rest'.takeWhile asciiDigit
                if ds = [] then (([] : List Char), cs₃)
                else (es ++ ds, rest'.dropWhile asciiDigit)
              else ([], cs₃)
            | [] => ([], cs₃)
          some (sign ++ intPart ++ fracPart ++ expPart, cs₄)

mutual

/-- A JSON value starting at `cs` (leading whitespace already skipped). -/
def jsonValue (fuel : Nat) (cs : List Char) : Option (JsValue × List Char) :=
  match fuel with
  | 0 => none
  | fuel + 1 =>
    match cs with
    | [] => none
    | c :: rest =>
      if c = '{' then jsonObjectRest fuel (rest.dropWhile jsonWsChar) [] true
      else if c = '[' then jsonArrayRest fuel (rest.dropWhile jsonWsChar) [] true
      else if c = '"' then
        match jsonStringBody (fuel + 1) rest [] with
        | some (s, rest') => some (.str s, rest')
        | none => none
      else if c = 't' then
        match cs with
        | 't' :: 'r' :: 'u' :: 'e' :: rest' => some (.bool true, rest')
        | _ => none
      else if c = 'f' then
        match cs with
        | 'f' :: 'a' :: 'l' :: 's' :: 'e' :: rest' => some (.bool false, rest')
        | _ => none
      else if c = 'n' then
        match cs with
        | 'n' :: 'u' :: 'l' :: 'l' :: rest' => some (.null, rest')
        | _ => none
      else
        match jsonNumberLit cs with
        | some (lit, rest') => some (.num (String.mk lit), rest')
        | none => none

/-- Members of a JSON object after `{` (whitespace skipped); `first`
records whether no member has been read yet. -/
def jsonObjectRest (fuel : Nat) (cs : List Char) (acc : List (String × JsValue))
    (first : Bool) : Option (JsValue × List Char) :=
  match fuel with
  | 0 => none
  | fuel + 1 =>
    match cs with
    | '}' :: rest => if first then some (.obj acc.reverse, rest) else none
    | _ =>
      match cs with
      | '"' :: rest =>
        match jsonStringBody (fuel + 1) rest [] with
        | some (k, rest₁) =>
          match rest₁.dropWhile jsonWsChar with
          | ':' :: rest₂ =>
            match jsonValue fuel (rest₂.dropWhile jsonWsChar) with
            | some (v, rest₃) =>
              match rest₃.dropWhile jsonWsChar with
              | ',' :: rest₄ =>
                match (rest₄.dropWhile jsonWsChar) with
                | '}' :: _ => none
                | cs' => jsonObjectRest fuel cs' ((k, v) :: acc) false
              | '}' :: rest₄ => some (.obj ((k, v) :: acc).reverse, rest₄)
              | _ => none
            | none => none
          | _ => none
        | none => none
      | _ => none

/-- Elements of a JSON array after `[` (whitespace skipped). -/
def jsonArrayRest (fuel : Nat) (cs : List Char) (acc : List JsValue)
    (first : Bool) : Option (JsValue × List Char) :=
  match fuel with
  | 0 => none
  | fuel + 1 =>
    match cs with
    | ']' :: rest => if first then some (.arr acc.reverse, rest) else none
    | _ =>
      match jsonValue fuel cs with
      | some (v, rest₁) =>
        match rest₁.dropWhile jsonWsChar with
        | ',' :: rest₂ =>
          match rest₂.dropWhile jsonWsChar with
          | ']' :: _ => none
          | cs' => jsonArrayRest fuel cs' (v :: acc) false
        | ']' :: rest₂ => some (.arr (v :: acc).reverse, rest₂)
        | _ => none
      | none => none

end

/-- `JSON.parse`: the whole (whitespace-trimmed) input must be consumed. -/
def jsonParse (s : String) : Option JsValue :=
  match jsonValue (s.data.length + 1) (s.data.dropWhile jsonWsChar) with
  | some (v, rest) => if rest.dropWhile jsonWsChar = [] then some v else none
  | none => none

/-! ## The cleaned-parse string transformations

These model the regex replacements in `_parseStringToJson`
(react-tool-adapter.js, lines 166–186), with the exact backtracking
behaviour of the JavaScript regex engine on each pattern. -/

/-- Does `cs` start with three backticks? -/
def tickOpen (cs : List Char) : Bool :=
  match cs with
  | '`' :: '`' :: '`' :: _ => true
  | _ => false

/-- The lazy group `(.+?)` of ```` /```(?:json)?(.+?)```/s ````: the
shortest non-empty prefix of `cs` that is followed by three backticks. -/
def codeBlockLazy : List Char → Option (List Char)
  | [] => none
  | c :: rest =>
    if tickOpen rest then some [c]
    else
      match codeBlockLazy rest with
      | some cap => some (c :: cap)
      | none => none

/-- Matching the code-block pattern at one opening position: the greedy
optional `(?:json)?` is tried first and backtracked on failure. -/
def codeBlockAt (afterOpen : List Char) : Option (List Char) :=
  match (if ['j', 's', 'o', 'n'].isPrefixOf afterOpen
         then codeBlockLazy (afterOpen.drop 4) else none) with
  | some cap => some cap
  | none => codeBlockLazy afterOpen

/-- First match of ```` /```(?:json)?(.+?)```/s ````: try each start
position from the left. -/
def codeBlockSearch : List Char → Option (List Char)
  | [] => none
  | c :: rest =>
    match (if tickOpen (c :: rest) then codeBlockAt rest.tail.tail else none) with
    | some cap => some cap
    | none => codeBlockSearch rest

/-- The capture of the Markdown code-block regex, if it matches. -/
def codeBlockCapture (s : String) : Option String :=
  (codeBlockSearch s.data).map String.mk

/-- The class `[\s`'"]` of the edge-stripping replacements. -/
def edgeChar (c : Char) : Bool :=
  jsWsChar c || c = '`' || c = '\'' || c = '"'

/-- `replace(/^[\s`'"]*/, '').replace(/[\s`'"]*$/, '')`. -/
def stripEdges (s : String) : String :=
  String.mk (dropTrailing edgeChar (s.data.dropWhile edgeChar))

/-- `replace(/'/g, '"')`. -/
def singleToDouble (s : String) : String :=
  String.mk (s.data.map fun c => if c = '\'' then '"' else c)

/-- The lookahead `(?=\s*:)`. -/
def colonAhead (cs : List Char) : Bool :=
  match cs.dropWhile jsWsChar with
  | ':' :: _ => true
  | _ => false

/-- `replace(/(\w+)(?=\s*:)/g, '"$1"')`: a maximal `\w+` run is quoted
exactly when it is followed by optional whitespace and a colon (shorter
ends of the run cannot satisfy the lookahead, since the next character
would be a word character). -/
def propQuoteGo (fuel : Nat) (cs : List Char) : List Char :=
  match fuel with
  | 0 => cs
  | fuel + 1 =>
    match cs with
    | [] => []
    | c :: rest =>
    if wordChar c then
      let run := (c :: rest).takeWhile wordChar
      let rest' := (c :: rest).dropWhile wordChar
      if colonAhead rest' then '"' :: (run ++ '"' :: propQuoteGo fuel rest')
      else run ++ propQuoteGo fuel rest'
    else c :: propQuoteGo fuel rest

def propQuote (s : String) : String :=
  String.mk (propQuoteGo (s.data.length + 1) s.data)

/-- `replace(/,(\s*[}\]])/g, '$1')`: a comma directly before optional
whitespace and a closing brace or bracket is removed; scanning resumes
after the bracket. -/
def commaFixGo (fuel : Nat) (cs : List Char) : List Char :=
  match fuel with
  | 0 => cs
  | fuel + 1 =>
    match cs with
    | [] => []
    | c :: rest =>
    if c = ',' then
      let ws := rest.takeWhile jsWsChar
      match rest.dropWhile jsWsChar with
      | b :: rest' =>
        if b = '}' || b = ']' then ws ++ b :: commaFixGo fuel rest'
        else c :: commaFixGo fuel rest
      | [] => c :: commaFixGo fuel rest
    else c :: commaFixGo fuel rest

def commaFix (s : String) : String :=
  String.mk (commaFixGo (s.data.length + 1) s.data)

/-- The cleaned string of strategy 2 (lines 166–186): extract a fenced
code block if present, strip edge characters, convert single quotes,
quote bare property names, remove trailing commas. -/
def cleanInput (s : String) : String :=
  let cleaned := match codeBlockCapture s with
    | some cap => jsTrim cap
    | none => s
  commaFix (propQuote (singleToDouble (stripEdges cleaned)))

/-! ## Key-value extraction (strategy 3, lines 196–234) -/

/-- `Number(x)` is not NaN (`!isNaN(Number(value))`): the empty or
blank string (0), decimal literals with optional sign, fraction and
exponent, `Infinity`, and hex/octal/binary literals. -/
def jsIsNumeric (s : String) : Bool :=
  let hexDigit (c : Char) : Bool :=
    asciiDigit c || ('a' ≤ c && c ≤ 'f') || ('A' ≤ c && c ≤ 'F')
  let digitsAll (xs : List Char) : Bool := xs ≠ [] && xs.all asciiDigit
  let expOk (cs : List Char) : Bool :=
    match cs with
    | [] => true
    | e :: r =>
      (e = 'e' || e = 'E') &&
      (match r with
       | s :: r' => if s = '+' || s = '-' then digitsAll r' else digitsAll r
       | [] => false)
  let decTail (cs : List Char) : Bool :=
    let intP := cs.takeWhile asciiDigit
    let rest := cs.dropWhile asciiDigit
    match rest with
    | '.' :: r =>
      (intP ≠ [] || r.takeWhile asciiDigit ≠ []) && expOk (r.dropWhile asciiDigit)
    | _ => intP ≠ [] && expOk rest
  let unsigned (cs : List Char) : Bool :=
    cs = ['I', 'n', 'f', 'i', 'n', 'i', 't', 'y'] || decTail cs
  let t := (jsTrim s).data
  match t with
  | [] => true
  | '+' :: r => unsigned r
  | '-' :: r => unsigned r
  | '0' :: 'x' :: r => r ≠ [] && r.all hexDigit
  | '0' :: 'X' :: r => r ≠ [] && r.all hexDigit
  | '0' :: 'o' :: r => r ≠ [] && r.all fun c => '0' ≤ c && c ≤ '7'
  | '0' :: 'O' :: r => r ≠ [] && r.all fun c => '0' ≤ c && c ≤ '7'
  | '0' :: 'b' :: r => r ≠ [] && r.all fun c => c = '0' || c = '1'
  | '0' :: 'B' :: r => r ≠ [] && r.all fun c => c = '0' || c = '1'
  | _ => unsigned t

/-- Value coercion of the key-value strategy (lines 205–224): booleans,
numbers (kept as their literal here), quoted strings stripped via
`substring`, otherwise the trimmed string. -/
def coerceValue (raw : String) : JsValue :=
  let value := jsTrim raw
  if jsToLower value = "true" then .bool true
  else if jsToLower value = "false" then .bool false
  else if jsIsNumeric value && jsTrim value ≠ "" then .num value
  else if (jsStartsWith value "\"" && jsEndsWith value "\"") ||
          (jsStartsWith value "'" && jsEndsWith value "'") then
    .str (jsSubstring value 1 (value.data.length - 1))
  else .str value

/-- One attempt of `/(\w+)\s*:\s*([^,]+)(?:,|$)/` anchored at the head of
`cs`: key is the maximal `\w+` run (shorter runs cannot satisfy `\s*:`),
the value is the maximal run of non-comma characters after the colon; if
it would be empty, the greedy `\s*` backtracks by one whitespace
character.  Returns key, raw value and the rest after the separator. -/
def kvMatchHere (cs : List Char) : Option (String × String × List Char) :=
  let run := cs.takeWhile wordChar
  if run = [] then none
  else
    match (cs.dropWhile wordChar).dropWhile jsWsChar with
    | ':' :: afterColon =>
      let w := afterColon.takeWhile jsWsChar
      let afterW := afterColon.dropWhile jsWsChar
      match afterW with
      | [] =>
        match w.getLast? with
        | some lastWs => some (String.mk run, String.mk [lastWs], [])
        | none => none
      | a :: rest =>
        if a = ',' then
          match w.getLast? with
          | some lastWs => some (String.mk run, String.mk [lastWs], rest)
          | none => none
        else
          let v := afterW.takeWhile (fun c => c ≠ ',')
          match afterW.dropWhile (fun c => c ≠ ',') with
          | ',' :: rest' => some (String.mk run, String.mk v, rest')
          | rest' => some (String.mk run, String.mk v, rest')
    | _ => none

/-- The `exec` loop of the key-value strategy: leftmost match from the
current position, repeated after each match; `result[key] = value`. -/
def kvScan (fuel : Nat) (cs : List Char) (acc : List (String × JsValue)) :
    List (String × JsValue) :=
  match fuel with
  | 0 => acc
  | fuel + 1 =>
    match cs with
    | [] => acc
    | c :: rest =>
      match kvMatchHere (c :: rest) with
      | some (k, raw, rest') => kvScan fuel rest' (setField acc k (coerceValue raw))
      | none => kvScan fuel rest acc

/-- Strategy 3 (lines 196–234): the mapping extracted from repeated
`identifier : value` segments of the original input. -/
def keyValueExtract (s : String) : List (String × JsValue) :=
  kvScan (s.data.length + 1) s.data []

/-! ## The document-save extractor (lines 252–354) -/

def quoteChar (c : Char) : Bool := c = '"' || c = '\''

/-- The trailing alternation `(?:,|\s*\}|\s*$)` of the content
patterns. -/
def tailCond (cs : List Char) : Bool :=
  match cs with
  | ',' :: _ => true
  | _ =>
    match cs.dropWhile jsWsChar with
    | '}' :: _ => true
    | [] => true
    | _ => false

/-- The lazy group of `/content\s*:\s*["']([^]*?)["'](?:,|\s*\}|\s*$)/`:
the shortest (possibly empty) prefix followed by a quote satisfying the
trailing alternation. -/
def p1Lazy (fuel : Nat) (cs : List Char) : Option (List Char) :=
  match fuel with
  | 0 => none
  | fuel + 1 =>
    match cs with
    | [] => none
    | q :: rest =>
      if quoteChar q && tailCond rest then some []
      else
        match p1Lazy fuel rest with
        | some cap => some (cs.headD q :: cap)
        | none => none

/-- The quoted content pattern, matched right after the literal
`content`. -/
def p1At (cs : List Char) : Option (List Char) :=
  match cs.dropWhile jsWsChar with
  | ':' :: r =>
    match r.dropWhile jsWsChar with
    | q :: r' => if quoteChar q then p1Lazy (r'.length + 1) r' else none
    | [] => none
  | _ => none

/-- Characters allowed in the unquoted content pattern `[^,\}]`. -/
def p2Class (c : Char) : Bool := c ≠ ',' && c ≠ '}'

/-- `/content\s*:\s*([^,\}]+)(?:,|\s*\}|\s*$)/s`, matched right after
the literal `content`: the greedy whitespace backtracks by one character
when the class would otherwise capture nothing; the trailing alternation
is always satisfied after a maximal class run. -/
def p2At (cs : List Char) : Option (List Char) :=
  match cs.dropWhile jsWsChar with
  | ':' :: r =>
    let w := r.takeWhile jsWsChar
    let afterW := r.dropWhile jsWsChar
    match afterW with
    | a :: _ =>
      if p2Class a then some (afterW.takeWhile p2Class)
      else (w.getLast?).map fun lastWs => [lastWs]
    | [] => (w.getLast?).map fun lastWs => [lastWs]
  | _ => none

/-- ``` /```(?:markdown|md)?\s*([^`]+)```/s ```, matched right after an
opening triple backtick: alternatives of the optional language tag are
tried in order; the class capture must be followed directly by a closing
triple backtick (shrinking the greedy run cannot create one, and
shrinking the greedy whitespace only moves the capture start). -/
def p3At (afterOpen : List Char) : Option (List Char) :=
  let attempt (r : List Char) : Option (List Char) :=
    let w := r.takeWhile jsWsChar
    let afterW := r.dropWhile jsWsChar
    match afterW with
    | a :: _ =>
      if a ≠ '`' then
        let run := afterW.takeWhile (fun c => c ≠ '`')
        if tickOpen (afterW.dropWhile (fun c => c ≠ '`')) then some run else none
      else
        match w.getLast? with
        | some lastWs => if tickOpen afterW then some [lastWs] else none
        | none => none
    | [] => none
  match (if "markdown".data.isPrefixOf afterOpen
         then attempt (afterOpen.drop 8) else none) with
  | some cap => some cap
  | none =>
    match (if "md".data.isPrefixOf afterOpen
           then attempt (afterOpen.drop 2) else none) with
    | some cap => some cap
    | none => attempt afterOpen

/-- Leftmost-match search: at each position whose prefix (of length
`skip`) satisfies `hit`, run `attempt` on the rest; first success
wins. -/
def searchBy {α : Type} (hit : List Char → Bool) (skip : Nat)
    (attempt : List Char → Option α) : List Char → Option α
  | [] => none
  | c :: rest =>
    match (if hit (c :: rest) then attempt ((c :: rest).drop skip) else none) with
    | some x => some x
    | none => searchBy hit skip attempt rest

def litHit (lit : List Char) (cs : List Char) : Bool := lit.isPrefixOf cs

/-- Case-insensitive literal test (for the `/i` flag). -/
def ciHit (lit : List Char) (cs : List Char) : Bool :=
  (cs.take lit.length).map jsLowerChar = lit

def contentPattern1 (s : String) : Option String :=
  (searchBy (litHit "content".data) 7 p1At s.data).map String.mk

def contentPattern2 (s : String) : Option String :=
  (searchBy (litHit "content".data) 7 p2At s.data).map String.mk

def contentPattern3 (s : String) : Option String :=
  (searchBy tickOpen 3 p3At s.data).map String.mk

/-- The content-extraction loop (lines 291–311): patterns tried in
order, first match wins, capture trimmed; the final pattern `/(.+)/s`
captures the whole input whenever it is non-empty.  When no pattern
matches, `content` keeps its initial empty value. -/
def extractedContent (s : String) : String :=
  match contentPattern1 s with
  | some cap => jsTrim cap
  | none =>
    match contentPattern2 s with
    | some cap => jsTrim cap
    | none =>
      match contentPattern3 s with
      | some cap => jsTrim cap
      | none => if s.data = [] then "" else jsTrim s

/-- The class `[^"',\}]` of the auxiliary field patterns. -/
def auxClass (c : Char) : Bool :=
  c ≠ '"' && c ≠ '\'' && c ≠ ',' && c ≠ '}'

/-- `/key\s*:\s*["']?([^"',\}]+)["']?/`, matched right after the literal
key: optional opening quote consumed greedily; when the class would
capture nothing the greedy whitespace backtracks by one character (a
whitespace character is in the class), making the capture that
whitespace character. -/
def auxAt (cs : List Char) : Option (List Char) :=
  match cs.dropWhile jsWsChar with
  | ':' :: r =>
    let w := r.takeWhile jsWsChar
    let afterW := r.dropWhile jsWsChar
    let direct :=
      match afterW with
      | q :: rest =>
        if quoteChar q then
          let run := rest.takeWhile auxClass
          if run ≠ [] then some run else none
        else
          let run := afterW.takeWhile auxClass
          if run ≠ [] then some run else none
      | [] => none
    match direct with
    | some run => some run
    | none => (w.getLast?).map fun lastWs => [lastWs]
  | _ => none

def folderTypeMatch (s : String) : Option String :=
  (searchBy (litHit "folderType".data) 10 auxAt s.data).map String.mk

def fileNameMatch (s : String) : Option String :=
  (searchBy (litHit "fileName".data) 8 auxAt s.data).map String.mk

/-- `/overwrite\s*:\s*(true|false)/i`, matched right after the
(case-insensitively matched) literal `overwrite`; the result models
`overwriteMatch[1].toLowerCase() === 'true'`. -/
def overwriteAt (cs : List Char) : Option Bool :=
  match cs.dropWhile jsWsChar with
  | ':' :: r =>
    let afterW := r.dropWhile jsWsChar
    if ciHit "true".data afterW then some true
    else if ciHit "false".data afterW then some false
    else none
  | _ => none

def overwriteMatch (s : String) : Option Bool :=
  searchBy (ciHit "overwrite".data) 9 overwriteAt s.data

def defaultFileName (ts : Nat) : String := "document_" ++ toString ts ++ ".md"

/-- The message of the error rethrown by the extractor's catch
(lines 348–352) when the parsed content is empty. -/
def saveDocErrorMessage : String :=
  "SaveDocumentToolの入力解析に失敗しました: ドキュメント保存に失敗: コンテンツが空です\n\n正しいフォーマットは次の通りです：\n\x7b\n  \"folderType\": \"output\", \n  \"fileName\": \"example.md\", \n  \"content\": \"ドキュメント内容\"\n\x7d"

/-- The content the regex branch ends up with (lines 313–319): the
extracted content if truthy, otherwise the whole input. -/
def saveDocContentStr (s : String) : String :=
  if extractedContent s ≠ "" then extractedContent s else s

/-- The mapping assembled by the regex branch (lines 283–336): the
defaults, the content, then each auxiliary field that matched. -/
def saveDocResult (s : String) (ts : Nat) : List (String × JsValue) :=
  let result := [("folderType", JsValue.str "output"),
                 ("fileName", JsValue.str (defaultFileName ts)),
                 ("content", JsValue.str (saveDocContentStr s))]
  let result := match folderTypeMatch s with
    | some cap => setField result "folderType" (.str (jsTrim cap))
    | none => result
  let result := match fileNameMatch s with
    | some cap => setField result "fileName" (.str (jsTrim cap))
    | none => result
  let result := match overwriteMatch s with
    | some b => setField result "overwrite" (.bool b)
    | none => result
  result

/-- The regex part of the document-save extractor (lines 281–353): build
the result with defaults, extract content (falling back to the whole
input when the extracted content is empty), extract auxiliary fields,
validate non-empty content (`!result.content || result.content.trim()
=== ''`, line 339). -/
def saveDocumentRegex (s : String) (ts : Nat) :
    Except String (List (String × JsValue)) :=
  if saveDocContentStr s = "" || jsTrim (saveDocContentStr s) = "" then
    .error saveDocErrorMessage
  else .ok (saveDocResult s ts)

/-- The document-save extractor (lines 252–354).  The re-attempted
`JSON.parse` and the property access on its result sit in their own
`try`; a `TypeError` from `null.content` is caught there, so any
non-object parse falls through to the regex part. -/
def saveDocumentExtract (s : String) (ts : Nat) :
    Except String (List (String × JsValue)) :=
  match jsonParse s with
  | some (.obj o) =>
    if truthy (getField o "content") then
      let o := if truthy (getField o "folderType") then o
               else setField o "folderType" (.str "output")
      let o := if truthy (getField o "fileName") then o
               else setField o "fileName" (.str (defaultFileName ts))
      .ok o
    else saveDocumentRegex s ts
  | _ => saveDocumentRegex s ts

/-! ## The cascade `_parseStringToJson` (lines 133–364) -/

/-- The inputs `_parseStringToJson` can receive, by `typeof` class.
Booleans are converted by `String(input)`; objects, `null` and
`undefined` are returned unchanged before any parsing. -/
inductive JsIn : Type where
  | str (s : String) : JsIn
  | objIn (o : List (String × JsValue)) : JsIn
  | nullIn : JsIn
  | undefIn : JsIn
  | boolIn (b : Bool) : JsIn

/-- The body of the outer `try` (lines 156–358) on a non-blank string:
strict parse, cleaned parse, key-value extraction, tool-specific
extractors, opaque fallback.  An `error` models an exception leaving the
`try`. -/
def tryBody (toolName : String) (s : String) (ts : Nat) : Except String JsValue :=
  match jsonParse s with
  | some v => .ok v
  | none =>
    match jsonParse (cleanInput s) with
    | some v => .ok v
    | none =>
      match keyValueExtract s with
      | kv@(_ :: _) => .ok (.obj kv)
      | [] =>
      if toolName = "requirement_analysis" then
        .ok (.obj [("description", .str s)])
      else if toolName = "external_design" then
        .ok (.obj [("requirementsAnalysis", .str s)])
      else if toolName = "save_document" then
        match saveDocumentExtract s ts with
        | .ok o => .ok (.obj o)
        | .error e => .error e
      else .ok (.obj [("input", .str s)])

/-- `_parseStringToJson` on a string: empty or blank input returns the
empty mapping before any strategy runs; the outer `catch` (lines
359–363) converts any exception into the empty mapping. -/
def parseStringGo (toolName : String) (s : String) (ts : Nat) :
    Except String JsValue :=
  if s = "" || jsTrim s = "" then .ok (.obj [])
  else
    match tryBody toolName s ts with
    | .ok v => .ok v
    | .error _ => .ok (.obj [])

/-- `_parseStringToJson` (lines 133–364). `toolName` is `this.name`,
`ts` the value of `Date.now()`.  A `.error` result would model an
exception propagating to the caller; the function never produces one. -/
def parseStringToJson (toolName : String) (input : JsIn) (ts : Nat) :
    Except String JsValue :=
  match input with
  | .nullIn => .ok .null
  | .undefIn => .ok .undefined
  | .objIn o => .ok (.obj o)
  | .boolIn b => parseStringGo toolName (if b then "true" else "false") ts
  | .str s => parseStringGo toolName s ts

/-! ## The naming utility (`src/utils/formatter.js`) -/

/-- The observations of `new Date()` that the formatter uses.
`getMonth` is zero-based, as in JavaScript. -/
structure JsDate : Type where
  getFullYear : Nat
  getMonth : Nat
  getDate : Nat
  getHours : Nat
  getMinutes : Nat
  getSeconds : Nat
deriving DecidableEq

/-- `String.prototype.padStart(len, c)`. -/
def jsPadStart (s : String) (len : Nat) (c : Char) : String :=
  if len ≤ s.length then s
  else String.mk (List.replicate (len - s.length) c) ++ s

/-- `getFormattedDateTime` (formatter.js, lines 10–21):
`YYYYMMDD_HHMMSS` for the given clock reading. -/
def getFormattedDateTime (now : JsDate) : String :=
  let year := toString now.getFullYear
  let month := jsPadStart (toString (now.getMonth + 1)) 2 '0'
  let day := jsPadStart (toString now.getDate) 2 '0'
  let hours := jsPadStart (toString now.getHours) 2 '0'
  let minutes := jsPadStart (toString now.getMinutes) 2 '0'
  let seconds := jsPadStart (toString now.getSeconds) 2 '0'
  year ++ month ++ day ++ "_" ++ hours ++ minutes ++ seconds

/-- `/\d{8}/.test(baseName)`: some position is followed by eight
consecutive ASCII digits. -/
def containsEightDigits (s : String) : Bool :=
  go s.data
where
  go : List Char → Bool
    | [] => false
    | c :: rest =>
      (8 ≤ (c :: rest).length && ((c :: rest).take 8).all asciiDigit) || go rest

/-- `getTimestampedFilename` (formatter.js, lines 94–105).  When the
base name already contains an eight-digit token, `substring(9)` of the
formatted date-time is appended (for a four-digit year this is the
`HHMMSS` part, without the underscore); otherwise the full
`_YYYYMMDD_HHMMSS` suffix is appended before the extension. -/
def getTimestampedFilename (baseName extension : String) (now : JsDate) : String :=
  if containsEightDigits baseName then
    let timeStamp := jsSubstring (getFormattedDateTime now) 9
      (getFormattedDateTime now).length
    baseName ++ timeStamp ++ "." ++ extension
  else
    baseName ++ "_" ++ getFormattedDateTime now ++ "." ++ extension

/-! ## The document persistence service (`SaveDocumentTool._call`,
analysis-tools.js, lines 234–328) -/

/-- The record built in `src/config/index.js` (lines 26–32): the five
output sub-directories.  Note that it has no `output` property. -/
structure OutputDirs : Type where
  root : String
  requirements : String
  designs : String
  sessions : String
  diagrams : String
deriving DecidableEq

/-- JavaScript property read `config.app.outputDirs[key]`: `none` models
`undefined`, in particular for the key `output`, which the record does
not have. -/
def OutputDirs.read (d : OutputDirs) (key : String) : Option String :=
  if key = "root" then some d.root
  else if key = "requirements" then some d.requirements
  else if key = "designs" then some d.designs
  else if key = "sessions" then some d.sessions
  else if key = "diagrams" then some d.diagrams
  else none

/-- The concrete directory record of the running application with
`OUTPUT_DIR=output` (the values are opaque path strings; only their
identity matters below). -/
def modelDirs : OutputDirs :=
  { root := "output"
    requirements := "output/requirements"
    designs := "output/designs"
    sessions := "output/sessions"
    diagrams := "output/diagrams" }

/-- The file system, as an association of paths to file contents. -/
def FileSys : Type := List (String × String)

def fsLookup : FileSys → String → Option String
  | [], _ => none
  | (p, c) :: rest, q => if p = q then some c else fsLookup rest q

/-- `fs.writeFileSync`: replace the content at the path, or create the
entry. -/
def fsWrite : FileSys → String → String → FileSys
  | [], p, c => [(p, c)]
  | (q, d) :: rest, p, c =>
    if q = p then (q, c) :: rest else (q, d) :: fsWrite rest p c

/-- The errors `SaveDocumentTool._call` can raise before being wrapped
by its outer catch (line 324–327).  Directory-creation and write
failures of the underlying file system are not modelled. -/
inductive SaveErr : Type where
  | noArgs : SaveErr
  | emptyContent : SaveErr
  | noOutputDir (folderType : String) : SaveErr
  | badPathArg : SaveErr
  | badWriteArg : SaveErr
deriving DecidableEq

/-- The `error.message` texts of the modelled errors (the two TypeError
messages come from Node's `path.join` and `fs.writeFileSync` argument
validation and are abbreviated). -/
def SaveErr.message : SaveErr → String
  | .noArgs => "引数が未定義または空です"
  | .emptyContent => "contentが未定義または空です"
  | .noOutputDir folderType => "出力ディレクトリが設定されていません: " ++ folderType
  | .badPathArg => "The \"path\" argument must be of type string"
  | .badWriteArg => "The \"data\" argument must be of type string"

/-- What `_call` produces: the three returned message kinds carrying the
display path, or a thrown error.  The outer catch rethrows every error
with the message `ドキュメントの保存中にエラーが発生しました: ` ++
the original message (line 326). -/
inductive SaveOutcome : Type where
  | created (displayPath : String) : SaveOutcome
  | overwritten (displayPath : String) : SaveOutcome
  | declined (displayPath : String) : SaveOutcome
  | error (e : SaveErr) : SaveOutcome
deriving DecidableEq

/-- The message thrown out of `_call` for a modelled error. -/
def thrownMessage (e : SaveErr) : String :=
  "ドキュメントの保存中にエラーが発生しました: " ++ e.message

/-- The string returned by `_call` on the non-error outcomes
(lines 311 and 323). -/
def SaveOutcome.returned : SaveOutcome → Option String
  | .created p => some ("ドキュメントが " ++ p ++ " に保存されました。")
  | .overwritten p =>
    some ("ドキュメントが " ++ p ++ " に上書き保存されました。（既存ファイルを上書きしました）")
  | .declined p =>
    some ("ファイル " ++ p ++ " は既に存在し、上書きオプションが指定されていなかったため保存できませんでした。上書きする場合は overwrite: true を指定してください。")
  | .error _ => none

/-- Property read on an arbitrary argument value: destructuring reads
properties, which yield `undefined` on every non-object primitive. -/
def argField : JsValue → String → JsValue
  | .obj o, key => getField o key
  | _, _ => .undefined

/-- `folderType` after the default of line 248: falsy values are
replaced by `"output"`. -/
def effFolderType (args : JsValue) : JsValue :=
  let f := argField args "folderType"
  if truthy f then f else .str "output"

/-- `fileName` after the default of line 253: falsy values are replaced
by the inline `document_<Date.now()>.md` name. -/
def effFileName (args : JsValue) (ts : Nat) : JsValue :=
  let f := argField args "fileName"
  if truthy f then f else .str (defaultFileName ts)

/-- `overwrite = false`: the destructuring default applies exactly to
`undefined`. -/
def effOverwrite (args : JsValue) : JsValue :=
  match argField args "overwrite" with
  | .undefined => .bool false
  | v => v

/-- The `switch (folderType)` of lines 268–277: `case` comparison is
strict equality, so only the exact strings select a known directory;
everything else reads the absent `output` property. -/
def resolveDir (dirs : OutputDirs) (folderType : JsValue) : Option String :=
  match folderType with
  | .str ft =>
    if ft = "requirements" then some dirs.requirements
    else if ft = "designs" then some dirs.designs
    else dirs.read "output"
  | _ => dirs.read "output"

/-- Display form of a value in a template literal (only strings occur in
the reachable error message). -/
def jsDisplay : JsValue → String
  | .str s => s
  | .num lit => lit
  | .bool b => toString b
  | .null => "null"
  | .undefined => "undefined"
  | .arr _ => ""
  | .obj _ => "[object Object]"

/-- `path.join(outputDir, fileName)`; the inputs below contain no
separator irregularities, so joining is concatenation with `/`. -/
def pathJoin (a b : String) : String := a ++ "/" ++ b

/-- `filePath.replace(/\\/g, '/')` (line 296). -/
def displayOf (p : String) : String :=
  String.mk (p.data.map fun c => if c = '\\' then '/' else c)

/-- `SaveDocumentTool._call` (analysis-tools.js, lines 234–328).
`args` is the value the adapter passed, `ts` the value of `Date.now()`.
Directory creation (line 300) does not change the modelled state and its
failure modes are not modelled; neither are write failures. -/
def saveDocumentCall (args : JsValue) (dirs : OutputDirs) (ts : Nat)
    (fs : FileSys) : SaveOutcome × FileSys :=
  if !truthy args then (.error .noArgs, fs)
  else
    let folderType := effFolderType args
    let fileName := effFileName args ts
    let content := argField args "content"
    let overwrite := effOverwrite args
    if !truthy content then (.error .emptyContent, fs)
    else
      match resolveDir dirs folderType with
      | none => (.error (.noOutputDir (jsDisplay folderType)), fs)
      | some outputDir =>
        if outputDir = "" then (.error (.noOutputDir (jsDisplay folderType)), fs)
        else
          match fileName with
          | .str fn =>
            let filePath := pathJoin outputDir fn
            let displayPath := displayOf filePath
            let fileExists := (fsLookup fs filePath).isSome
            if fileExists && !truthy overwrite then (.declined displayPath, fs)
            else
              match content with
              | .str c =>
                (if fileExists then .overwritten displayPath
                 else .created displayPath, fsWrite fs filePath c)
              | _ => (.error .badWriteArg, fs)
          | _ => (.error .badPathArg, fs)

/-! ## Statement helpers -/

/-- The `HHMMSS` part of the formatted date-time. -/
def hhmmss (d : JsDate) : String :=
  jsPadStart (toString d.getHours) 2 '0' ++
  jsPadStart (toString d.getMinutes) 2 '0' ++
  jsPadStart (toString d.getSeconds) 2 '0'

/-- A clock reading as `new Date()` delivers it (field ranges of the
JavaScript `Date` getters, with a four-digit year). -/
def ValidJsDate (d : JsDate) : Prop :=
  1000 ≤ d.getFullYear ∧ d.getFullYear ≤ 9999 ∧ d.getMonth ≤ 11 ∧
  1 ≤ d.getDate ∧ d.getDate ≤ 31 ∧ d.getHours ≤ 23 ∧
  d.getMinutes ≤ 59 ∧ d.getSeconds ≤ 59

/-- Two clock readings on the same calendar date. -/
def SameCalendarDate (d₁ d₂ : JsDate) : Prop :=
  d₁.getFullYear = d₂.getFullYear ∧ d₁.getMonth = d₂.getMonth ∧
  d₁.getDate = d₂.getDate

/-! ## Lemmas -/

lemma jsGet_setField_self (o : List (String × JsValue)) (key : String) (v : JsValue) :
    jsGet (setField o key v) key = some v := by
  induction o with
  | nil => simp [setField, jsGet]
  | cons a rest ih =>
    obtain ⟨k, w⟩ := a
    by_cases h : k = key
    · simp [setField, h, jsGet]
    · simp [setField, h, jsGet, ih]

lemma jsGet_setField_ne (o : List (String × JsValue)) (key k : String)
    (v : JsValue) (h : key ≠ k) :
    jsGet (setField o key v) k = jsGet o k := by
  induction o with
  | nil => simp [setField, jsGet, h]
  | cons a rest ih =>
    obtain ⟨k', w⟩ := a
    by_cases h' : k' = key
    · subst h'
      simp [setField, jsGet, h]
    · simp [setField, h', jsGet, ih]

lemma dropWhile_head_not (p : Char → Bool) :
    ∀ (l : List Char) (c : Char) (r : List Char),
      l.dropWhile p = c :: r → p c = false := by
  intro l
  induction l with
  | nil => intro c r h; simp [List.dropWhile] at h
  | cons a l' ih =>
    intro c r h
    by_cases hp : p a
    · rw [List.dropWhile_cons_of_pos hp] at h
      exact ih c r h
    · rw [List.dropWhile_cons_of_neg hp] at h
      cases h
      simpa using hp

lemma dropWhile_idem (p : Char → Bool) (l : List Char) :
    (l.dropWhile p).dropWhile p = l.dropWhile p := by
  cases h : l.dropWhile p with
  | nil => rfl
  | cons c r =>
    have := dropWhile_head_not p l c r h
    rw [List.dropWhile_cons_of_neg (by simp [this])]

lemma dropTrailing_append (p : Char → Bool) (l : List Char) :
    l = dropTrailing p l ++ (l.reverse.takeWhile p).reverse := by
  unfold dropTrailing
  conv_lhs =>
    rw [← List.reverse_reverse l,
        ← List.takeWhile_append_dropWhile (p := p) (l := l.reverse)]
  rw [List.reverse_append]

lemma dropTrailing_idem (p : Char → Bool) (l : List Char) :
    dropTrailing p (dropTrailing p l) = dropTrailing p l := by
  unfold dropTrailing
  rw [List.reverse_reverse, dropWhile_idem]

lemma jsTrim_idem (s : String) : jsTrim (jsTrim s) = jsTrim s := by
  unfold jsTrim
  show String.mk (dropTrailing jsWsChar
      ((dropTrailing jsWsChar (s.data.dropWhile jsWsChar)).dropWhile jsWsChar)) = _
  have hstep : (dropTrailing jsWsChar (s.data.dropWhile jsWsChar)).dropWhile jsWsChar
      = dropTrailing jsWsChar (s.data.dropWhile jsWsChar) := by
    cases hr : dropTrailing jsWsChar (s.data.dropWhile jsWsChar) with
    | nil => rfl
    | cons c r' =>
      have happ := dropTrailing_append jsWsChar (s.data.dropWhile jsWsChar)
      rw [hr] at happ
      have hidem := dropWhile_idem jsWsChar s.data
      rw [happ] at hidem
      have hc : jsWsChar c = false := dropWhile_head_not jsWsChar _ _ _ hidem
      rw [List.dropWhile_cons_of_neg (by simp [hc])]
  rw [hstep, dropTrailing_idem]

lemma jsTrim_empty : jsTrim "" = "" := rfl

lemma extractedContent_trimmed (s : String) :
    jsTrim (extractedContent s) = extractedContent s := by
  unfold extractedContent
  cases contentPattern1 s with
  | some cap => exact jsTrim_idem _
  | none =>
    cases contentPattern2 s with
    | some cap => exact jsTrim_idem _
    | none =>
      cases contentPattern3 s with
      | some cap => exact jsTrim_idem _
      | none =>
        by_cases hd : s.data = []
        · simp [hd, jsTrim_empty]
        · simp [hd, jsTrim_idem]

/-- For a non-blank input the regex branch always validates: the content
is either the (idempotently) trimmed extract or the whole input. -/
lemma saveDocumentRegex_ok (s : String) (ts : Nat) (h : jsTrim s ≠ "") :
    saveDocumentRegex s ts = .ok (saveDocResult s ts) := by
  unfold saveDocumentRegex
  have hs : s ≠ "" := fun h0 => h (by rw [h0]; exact jsTrim_empty)
  by_cases hc : extractedContent s = ""
  · have hcs : saveDocContentStr s = s := by simp [saveDocContentStr, hc]
    rw [hcs]
    simp [hs, h]
  · have hcs : saveDocContentStr s = extractedContent s := by
      simp [saveDocContentStr, hc]
    rw [hcs, extractedContent_trimmed]
    simp [hc]

lemma saveDocResult_content (s : String) (ts : Nat) :
    jsGet (saveDocResult s ts) "content" = some (.str (saveDocContentStr s)) := by
  unfold saveDocResult
  have h1 : ("folderType" : String) ≠ "content" := by decide
  have h2 : ("fileName" : String) ≠ "content" := by decide
  have h3 : ("overwrite" : String) ≠ "content" := by decide
  cases folderTypeMatch s <;> cases fileNameMatch s <;> cases overwriteMatch s <;>
    simp [jsGet_setField_ne _ _ _ _ h1, jsGet_setField_ne _ _ _ _ h2,
      jsGet_setField_ne _ _ _ _ h3, jsGet]

lemma saveDocResult_fileName_default (s : String) (ts : Nat)
    (h : fileNameMatch s = none) :
    jsGet (saveDocResult s ts) "fileName" = some (.str (defaultFileName ts)) := by
  unfold saveDocResult
  rw [h]
  have h1 : ("folderType" : String) ≠ "fileName" := by decide
  have h3 : ("overwrite" : String) ≠ "fileName" := by decide
  cases folderTypeMatch s <;> cases overwriteMatch s <;>
    simp [jsGet_setField_ne _ _ _ _ h1, jsGet_setField_ne _ _ _ _ h3, jsGet]

lemma saveDocResult_folderType_default (s : String) (ts : Nat)
    (h : folderTypeMatch s = none) :
    jsGet (saveDocResult s ts) "folderType" = some (.str "output") := by
  unfold saveDocResult
  rw [h]
  have h2 : ("fileName" : String) ≠ "folderType" := by decide
  have h3 : ("overwrite" : String) ≠ "folderType" := by decide
  cases fileNameMatch s <;> cases overwriteMatch s <;>
    simp [jsGet_setField_ne _ _ _ _ h2, jsGet_setField_ne _ _ _ _ h3, jsGet]

/-- The cascade body never lets an exception escape: the outer catch
(line 359) turns every error into the empty mapping. -/
lemma parseStringGo_ok (toolName s : String) (ts : Nat) :
    ∃ v, parseStringGo toolName s ts = .ok v := by
  unfold parseStringGo
  by_cases hb : (s = "" || jsTrim s = "") = true
  · rw [if_pos hb]
    exact ⟨.obj [], rfl⟩
  · rw [if_neg hb]
    cases ht : tryBody toolName s ts with
    | ok v => exact ⟨v, rfl⟩
    | error e => exact ⟨.obj [], rfl⟩

lemma tdc1 (f n : Nat) (acc : List Char) (h : n ≤ 9) :
    Nat.toDigitsCore 10 (f + 1) n acc = Nat.digitChar n :: acc := by
  rw [Nat.toDigitsCore]
  have h0 : n / 10 = 0 := by omega
  have h1 : n % 10 = n := by omega
  simp only [h0, if_true, h1]

lemma tdc2 (f n : Nat) (acc : List Char) (h1 : 10 ≤ n) (h2 : n ≤ 99) :
    Nat.toDigitsCore 10 (f + 2) n acc =
      Nat.digitChar (n / 10) :: Nat.digitChar (n % 10) :: acc := by
  have hd1 : ¬ (n / 10 = 0) := by omega
  rw [Nat.toDigitsCore]
  simp only [hd1, if_false]
  rw [Nat.toDigitsCore]
  have hd2 : n / 10 / 10 = 0 := by omega
  have he : n / 10 % 10 = n / 10 := by omega
  simp only [hd2, if_true, he]

lemma tdc4 (f n : Nat) (acc : List Char) (h1 : 1000 ≤ n) (h2 : n ≤ 9999) :
    Nat.toDigitsCore 10 (f + 4) n acc =
      Nat.digitChar (n / 1000) :: Nat.digitChar (n / 100 % 10) ::
      Nat.digitChar (n / 10 % 10) :: Nat.digitChar (n % 10) :: acc := by
  have hd1 : ¬ (n / 10 = 0) := by omega
  have hd2 : ¬ (n / 10 / 10 = 0) := by omega
  have hd3 : ¬ (n / 10 / 10 / 10 = 0) := by omega
  rw [Nat.toDigitsCore]
  simp only [hd1, if_false]
  rw [Nat.toDigitsCore]
  simp only [hd2, if_false]
  rw [Nat.toDigitsCore]
  simp only [hd3, if_false]
  rw [Nat.toDigitsCore]
  have hd4 : n / 10 / 10 / 10 / 10 = 0 := by omega
  simp only [hd4, if_true]
  have e1 : n / 10 / 10 % 10 = n / 100 % 10 := by omega
  have e2 : n / 10 / 10 / 10 % 10 = n / 1000 := by omega
  rw [e1, e2]

lemma repr_small (n : Nat) (h : n ≤ 9) :
    Nat.repr n = String.mk [Nat.digitChar n] := by
  rw [Nat.repr, Nat.toDigits, tdc1 n n [] h]
  rfl

lemma repr_two (n : Nat) (h1 : 10 ≤ n) (h2 : n ≤ 99) :
    Nat.repr n = String.mk [Nat.digitChar (n / 10), Nat.digitChar (n % 10)] := by
  obtain ⟨f, hf⟩ : ∃ f, n + 1 = f + 2 := ⟨n - 1, by omega⟩
  rw [Nat.repr, Nat.toDigits, hf, tdc2 f n [] h1 h2]
  rfl

lemma repr_four (y : Nat) (h1 : 1000 ≤ y) (h2 : y ≤ 9999) :
    Nat.repr y = String.mk [Nat.digitChar (y / 1000), Nat.digitChar (y / 100 % 10),
                            Nat.digitChar (y / 10 % 10), Nat.digitChar (y % 10)] := by
  obtain ⟨f, hf⟩ : ∃ f, y + 1 = f + 4 := ⟨y - 3, by omega⟩
  rw [Nat.repr, Nat.toDigits, hf, tdc4 f y [] h1 h2]
  rfl

lemma digitChar_inj : ∀ a, a < 10 → ∀ b, b < 10 →
    Nat.digitChar a = Nat.digitChar b → a = b := by decide

lemma pad2_data (n : Nat) (h : n ≤ 99) :
    (jsPadStart (toString n) 2 '0').data =
      [Nat.digitChar (n / 10), Nat.digitChar (n % 10)] := by
  have ht : (toString n : String) = Nat.repr n := rfl
  by_cases hn : n ≤ 9
  · have h0 : n / 10 = 0 := by omega
    have h1 : n % 10 = n := by omega
    rw [ht, repr_small n hn]
    unfold jsPadStart
    rw [if_neg (by simp [String.length])]
    rw [h0, h1]
    simp [String.data_append]
    rfl
  · rw [ht, repr_two n (by omega) h]
    unfold jsPadStart
    rw [if_pos (by simp [String.length])]

lemma year_data (y : Nat) (h1 : 1000 ≤ y) (h2 : y ≤ 9999) :
    (toString y : String).data =
      [Nat.digitChar (y / 1000), Nat.digitChar (y / 100 % 10),
       Nat.digitChar (y / 10 % 10), Nat.digitChar (y % 10)] := by
  have ht : (toString y : String) = Nat.repr y := rfl
  rw [ht, repr_four y h1 h2]

lemma fmt_data (d : JsDate) (hv : ValidJsDate d) :
    (getFormattedDateTime d).data =
      [Nat.digitChar (d.getFullYear / 1000), Nat.digitChar (d.getFullYear / 100 % 10),
       Nat.digitChar (d.getFullYear / 10 % 10), Nat.digitChar (d.getFullYear % 10),
       Nat.digitChar ((d.getMonth + 1) / 10), Nat.digitChar ((d.getMonth + 1) % 10),
       Nat.digitChar (d.getDate / 10), Nat.digitChar (d.getDate % 10), '_',
       Nat.digitChar (d.getHours / 10), Nat.digitChar (d.getHours % 10),
       Nat.digitChar (d.getMinutes / 10), Nat.digitChar (d.getMinutes % 10),
       Nat.digitChar (d.getSeconds / 10), Nat.digitChar (d.getSeconds % 10)] := by
  obtain ⟨hy1, hy2, hmo, hd1, hd2, hh, hmi, hs⟩ := hv
  unfold getFormattedDateTime
  simp only [String.data_append, year_data d.getFullYear hy1 hy2,
    pad2_data (d.getMonth + 1) (by omega), pad2_data d.getDate (by omega),
    pad2_data d.getHours (by omega), pad2_data d.getMinutes (by omega),
    pad2_data d.getSeconds (by omega)]
  rfl

lemma hhmmss_data (d : JsDate) (hv : ValidJsDate d) :
    (hhmmss d).data =
      [Nat.digitChar (d.getHours / 10), Nat.digitChar (d.getHours % 10),
       Nat.digitChar (d.getMinutes / 10), Nat.digitChar (d.getMinutes % 10),
       Nat.digitChar (d.getSeconds / 10), Nat.digitChar (d.getSeconds % 10)] := by
  obtain ⟨hy1, hy2, hmo, hd1, hd2, hh, hmi, hs⟩ := hv
  unfold hhmmss
  simp only [String.data_append, pad2_data d.getHours (by omega),
    pad2_data d.getMinutes (by omega), pad2_data d.getSeconds (by omega)]
  rfl

lemma fmt_inj (d1 d2 : JsDate) (hv1 : ValidJsDate d1) (hv2 : ValidJsDate d2)
    (h : getFormattedDateTime d1 = getFormattedDateTime d2) : d1 = d2 := by
  have hdata := congrArg String.data h
  rw [fmt_data d1 hv1, fmt_data d2 hv2] at hdata
  obtain ⟨hy1, hy2, hmo, hda, hdb, hh, hmi, hs⟩ := hv1
  obtain ⟨hy1', hy2', hmo', hda', hdb', hh', hmi', hs'⟩ := hv2
  simp only [List.cons.injEq, and_true] at hdata
  obtain ⟨e1, e2, e3, e4, e5, e6, e7, e8, _, e9, e10, e11, e12, e13, e14⟩ := hdata
  have g1 : d1.getFullYear / 1000 = d2.getFullYear / 1000 :=
    digitChar_inj _ (by omega) _ (by omega) e1
  have g2 : d1.getFullYear / 100 % 10 = d2.getFullYear / 100 % 10 :=
    digitChar_inj _ (by omega) _ (by omega) e2
  have g3 : d1.getFullYear / 10 % 10 = d2.getFullYear / 10 % 10 :=
    digitChar_inj _ (by omega) _ (by omega) e3
  have g4 : d1.getFullYear % 10 = d2.getFullYear % 10 :=
    digitChar_inj _ (by omega) _ (by omega) e4
  have g5 : (d1.getMonth + 1) / 10 = (d2.getMonth + 1) / 10 :=
    digitChar_inj _ (by omega) _ (by omega) e5
  have g6 : (d1.getMonth + 1) % 10 = (d2.getMonth + 1) % 10 :=
    digitChar_inj _ (by omega) _ (by omega) e6
  have g7 : d1.getDate / 10 = d2.getDate / 10 :=
    digitChar_inj _ (by omega) _ (by omega) e7
  have g8 : d1.getDate % 10 = d2.getDate % 10 :=
    digitChar_inj _ (by omega) _ (by omega) e8
  have g9 : d1.getHours / 10 = d2.getHours / 10 :=
    digitChar_inj _ (by omega) _ (by omega) e9
  have g10 : d1.getHours % 10 = d2.getHours % 10 :=
    digitChar_inj _ (by omega) _ (by omega) e10
  have g11 : d1.getMinutes / 10 = d2.getMinutes / 10 :=
    digitChar_inj _ (by omega) _ (by omega) e11
  have g12 : d1.getMinutes % 10 = d2.getMinutes % 10 :=
    digitChar_inj _ (by omega) _ (by omega) e12
  have g13 : d1.getSeconds / 10 = d2.getSeconds / 10 :=
    digitChar_inj _ (by omega) _ (by omega) e13
  have g14 : d1.getSeconds % 10 = d2.getSeconds % 10 :=
    digitChar_inj _ (by omega) _ (by omega) e14
  have f1 : d1.getFullYear = d2.getFullYear := by omega
  have f2 : d1.getMonth = d2.getMonth := by omega
  have f3 : d1.getDate = d2.getDate := by omega
  have f4 : d1.getHours = d2.getHours := by omega
  have f5 : d1.getMinutes = d2.getMinutes := by omega
  have f6 : d1.getSeconds = d2.getSeconds := by omega
  cases d1
  cases d2
  simp only [JsDate.mk.injEq]
  exact ⟨f1, f2, f3, f4, f5, f6⟩

lemma hhmmss_inj (d1 d2 : JsDate) (hv1 : ValidJsDate d1) (hv2 : ValidJsDate d2)
    (hsame : d1.getFullYear = d2.getFullYear ∧ d1.getMonth = d2.getMonth ∧
      d1.getDate = d2.getDate)
    (h : hhmmss d1 = hhmmss d2) : d1 = d2 := by
  have hdata := congrArg String.data h
  rw [hhmmss_data d1 hv1, hhmmss_data d2 hv2] at hdata
  obtain ⟨hy1, hy2, hmo, hda, hdb, hh, hmi, hs⟩ := hv1
  obtain ⟨hy1', hy2', hmo', hda', hdb', hh', hmi', hs'⟩ := hv2
  simp only [List.cons.injEq, and_true] at hdata
  obtain ⟨e9, e10, e11, e12, e13, e14⟩ := hdata
  have g9 : d1.getHours / 10 = d2.getHours / 10 :=
    digitChar_inj _ (by omega) _ (by omega) e9
  have g10 : d1.getHours % 10 = d2.getHours % 10 :=
    digitChar_inj _ (by omega) _ (by omega) e10
  have g11 : d1.getMinutes / 10 = d2.getMinutes / 10 :=
    digitChar_inj _ (by omega) _ (by omega) e11
  have g12 : d1.getMinutes % 10 = d2.getMinutes % 10 :=
    digitChar_inj _ (by omega) _ (by omega) e12
  have g13 : d1.getSeconds / 10 = d2.getSeconds / 10 :=
    digitChar_inj _ (by omega) _ (by omega) e13
  have g14 : d1.getSeconds % 10 = d2.getSeconds % 10 :=
    digitChar_inj _ (by omega) _ (by omega) e14
  obtain ⟨f1, f2, f3⟩ := hsame
  have f4 : d1.getHours = d2.getHours := by omega
  have f5 : d1.getMinutes = d2.getMinutes := by omega
  have f6 : d1.getSeconds = d2.getSeconds := by omega
  cases d1
  cases d2
  simp only [JsDate.mk.injEq]
  exact ⟨f1, f2, f3, f4, f5, f6⟩

lemma fmt_length (d : JsDate) (hv : ValidJsDate d) :
    (getFormattedDateTime d).length = 15 := by
  show (getFormattedDateTime d).data.length = 15
  rw [fmt_data d hv]
  rfl

lemma substring9_eq_hhmmss (d : JsDate) (hv : ValidJsDate d) :
    jsSubstring (getFormattedDateTime d) 9 (getFormattedDateTime d).length =
      hhmmss d := by
  have hd := fmt_data d hv
  have hl : (getFormattedDateTime d).length = 15 := fmt_length d hv
  apply String.ext
  unfold jsSubstring
  rw [hl, hd, hhmmss_data d hv]
  rfl

/-! ## Claims -/

/-- C7: for every tool name, parsing an empty or whitespace-only raw
payload returns the empty mapping immediately: the blank test
(lines 150–154) precedes every strategy and every extractor, so the
result is `{}` whenever the trimmed input is empty. -/
theorem c7_blank_input_yields_empty_mapping (toolName s : String) (ts : Nat)
    (h : jsTrim s = "") :
    parseStringToJson toolName (.str s) ts = .ok (.obj []) := by
  show parseStringGo toolName s ts = _
  unfold parseStringGo
  rw [if_pos (by simp [h])]

/-- Witness for C7 at a concrete whitespace payload. -/
theorem c7_blank_input_yields_empty_mapping_witness :
    jsTrim "  " = "" ∧
    parseStringToJson "save_document" (.str "  ") 0 = .ok (.obj []) :=
  ⟨rfl, c7_blank_input_yields_empty_mapping "save_document" "  " 0 rfl⟩

/-- C9: a `null` or `undefined` payload is returned unchanged by
`_parseStringToJson` (lines 134–138), before any parsing: the result is
that very value and not a mapping, so the non-null guarantee only holds
for string or mapping payloads. -/
theorem c9_null_undefined_passthrough (toolName : String) (ts : Nat) :
    parseStringToJson toolName .nullIn ts = .ok .null ∧
    parseStringToJson toolName .undefIn ts = .ok .undefined ∧
    JsValue.null.isObj = false ∧ JsValue.undefined.isObj = false :=
  ⟨rfl, rfl, rfl, rfl⟩

/-- C5 (counterexample): the scenario payload is consumed by the generic
key-value strategy, which returns `{content: "Hello", fileName: "x.md"}`
with no category field at all — the fallback category is not injected,
contrary to the claim. -/
theorem c5_counterexample :
    parseStringToJson "save_document"
        (.str "content: \"Hello\", fileName: \"x.md\"") 0 =
      .ok (.obj [("content", .str "Hello"), ("fileName", .str "x.md")]) ∧
    jsGet [("content", JsValue.str "Hello"), ("fileName", JsValue.str "x.md")]
        "folderType" = none ∧
    jsGet [("content", JsValue.str "Hello"), ("fileName", JsValue.str "x.md")]
        "category" = none :=
  ⟨by rfl, rfl, rfl⟩

/-- C5 (amended): the scenario payload yields exactly
`{content: "Hello", fileName: "x.md"}`, produced by the key-value
strategy (strategy 3), which precedes the document-save extractor; no
default category is injected. -/
theorem c5_amended_keyvalue_wins :
    keyValueExtract "content: \"Hello\", fileName: \"x.md\"" =
      [("content", .str "Hello"), ("fileName", .str "x.md")] ∧
    parseStringToJson "save_document"
        (.str "content: \"Hello\", fileName: \"x.md\"") 0 =
      .ok (.obj [("content", .str "Hello"), ("fileName", .str "x.md")]) :=
  ⟨by rfl, by rfl⟩

/-- C2 (counterexample): the payload `"```   ```"` reaches the
document-save extractor (strict parse, cleaned parse and key-value
extraction all fail) and its pattern-extracted content is empty after
trimming, yet `parse` returns a mapping — the whole raw input is
substituted as content — rather than letting a validation failure
propagate to the caller. -/
theorem c2_counterexample :
    extractedContent "```   ```" = "" ∧
    jsonParse "```   ```" = none ∧
    keyValueExtract "```   ```" = [] ∧
    parseStringToJson "save_document" (.str "```   ```") 7 =
      .ok (.obj [("folderType", .str "output"),
                 ("fileName", .str "document_7.md"),
                 ("content", .str "```   ```")]) :=
  ⟨rfl, rfl, rfl, rfl⟩

/-- C2 (amended): for a non-blank input on which the strict parse fails
and whose pattern-extracted content is empty after trimming, the
document-save extractor does not signal a validation failure: it
substitutes the entire raw input as the content and returns a mapping;
moreover `parse` never lets an exception reach its caller (the outer
catch would return the empty mapping). -/
theorem c2_amended_no_propagation (s : String) (ts : Nat)
    (h : jsTrim s ≠ "") (hj : jsonParse s = none)
    (he : extractedContent s = "") :
    saveDocumentExtract s ts = .ok (saveDocResult s ts) ∧
    jsGet (saveDocResult s ts) "content" = some (.str s) ∧
    ∀ toolName e, parseStringToJson toolName (.str s) ts ≠ .error e := by
  refine ⟨?_, ?_, ?_⟩
  · unfold saveDocumentExtract
    rw [hj]
    exact saveDocumentRegex_ok s ts h
  · rw [saveDocResult_content]
    have : saveDocContentStr s = s := by simp [saveDocContentStr, he]
    rw [this]
  · intro toolName e hcontra
    obtain ⟨v, hv⟩ := parseStringGo_ok toolName s ts
    rw [show parseStringToJson toolName (.str s) ts = parseStringGo toolName s ts
          from rfl, hv] at hcontra
    cases hcontra

/-- Witness for C2's amended statement at the concrete counterexample
input. -/
theorem c2_amended_no_propagation_witness :
    jsTrim "```   ```" ≠ "" ∧
    saveDocumentExtract "```   ```" 7 = .ok (saveDocResult "```   ```" 7) ∧
    jsGet (saveDocResult "```   ```" 7) "content" = some (.str "```   ```") := by
  have h := c2_amended_no_propagation "```   ```" 7 (by decide) rfl rfl
  exact ⟨by decide, h.1, h.2.1⟩

/-- C6 (counterexample): for a payload without a fileName field the
extractor's injected default is `document_<Date.now()>.md`, computed
inline from the epoch milliseconds — not a name produced by the naming
utility `getTimestampedFilename`, whose output for the same base name
carries a `_YYYYMMDD_HHMMSS` stamp. -/
theorem c6_counterexample :
    parseStringToJson "save_document" (.str "hello") 1700000000000 =
      .ok (.obj [("folderType", .str "output"),
                 ("fileName", .str "document_1700000000000.md"),
                 ("content", .str "hello")]) ∧
    getTimestampedFilename "document" "md" (JsDate.mk 2023 10 14 22 13 20) =
      "document_20231114_221320.md" ∧
    ("document_1700000000000.md" : String) ≠ "document_20231114_221320.md" :=
  ⟨rfl, rfl, by decide⟩

/-- C6 (amended): in the document-save extractor's regex branch, a
missing category field is defaulted to `"output"`, and a missing
fileName field is defaulted to the inline `document_<Date.now()>.md`
name (line 285) — not to a naming-utility name. -/
theorem c6_amended_inline_defaults (s : String) (ts : Nat)
    (o : List (String × JsValue)) (h : saveDocumentRegex s ts = .ok o) :
    (fileNameMatch s = none →
      jsGet o "fileName" = some (.str (defaultFileName ts))) ∧
    (folderTypeMatch s = none →
      jsGet o "folderType" = some (.str "output")) := by
  have ho : o = saveDocResult s ts := by
    unfold saveDocumentRegex at h
    split at h
    · cases h
    · cases h
      rfl
  subst ho
  exact ⟨fun hf => saveDocResult_fileName_default s ts hf,
         fun hf => saveDocResult_folderType_default s ts hf⟩

/-- Witness for C6's amended statement at a concrete payload with no
auxiliary fields. -/
theorem c6_amended_inline_defaults_witness :
    fileNameMatch "hello" = none ∧ folderTypeMatch "hello" = none ∧
    jsGet (saveDocResult "hello" 3) "fileName" =
      some (.str (defaultFileName 3)) ∧
    jsGet (saveDocResult "hello" 3) "folderType" = some (.str "output") := by
  have h := c6_amended_inline_defaults "hello" 3 (saveDocResult "hello" 3) rfl
  exact ⟨rfl, rfl, h.1 rfl, h.2 rfl⟩

/-- C3: the configuration record has no `output` property, so the
persistence service's `switch` default reads `undefined` and the
`!outputDir` guard throws for the scenario's category `"c"` (and even
for the schema-declared category `"output"`): `save` raises the
configuration error instead of returning Created/Declined, and the file
system is unchanged. -/
theorem c3_fallback_category_throws :
    saveDocumentCall
        (.obj [("folderType", .str "c"), ("fileName", .str "f.md"),
               ("content", .str "X"), ("overwrite", .bool false)])
        modelDirs 0 [] = (.error (.noOutputDir "c"), []) ∧
    saveDocumentCall
        (.obj [("folderType", .str "output"), ("fileName", .str "f.md"),
               ("content", .str "X")])
        modelDirs 0 [] = (.error (.noOutputDir "output"), []) ∧
    modelDirs.read "output" = none ∧
    thrownMessage (.noOutputDir "c") =
      "ドキュメントの保存中にエラーが発生しました: 出力ディレクトリが設定されていません: c" :=
  ⟨rfl, rfl, rfl, rfl⟩

/-- C8 (amended): with an 8-digit token in the base name only the
compact `HHMMSS` suffix is appended (so calls on different dates at the
same time of day coincide), otherwise the full `_YYYYMMDD_HHMMSS` suffix
is appended; two calls with the same base name at different valid clock
readings produce different names — unconditionally in the full-suffix
branch, and for readings on the same calendar date in the compact
branch. -/
theorem c8_amended (base ext : String) (d1 d2 : JsDate)
    (hv1 : ValidJsDate d1) (hv2 : ValidJsDate d2) :
    (containsEightDigits base = true →
      getTimestampedFilename base ext d1 = base ++ hhmmss d1 ++ "." ++ ext ∧
      (SameCalendarDate d1 d2 → d1 ≠ d2 →
        getTimestampedFilename base ext d1 ≠ getTimestampedFilename base ext d2)) ∧
    (containsEightDigits base = false →
      getTimestampedFilename base ext d1 =
        base ++ "_" ++ getFormattedDateTime d1 ++ "." ++ ext ∧
      (d1 ≠ d2 →
        getTimestampedFilename base ext d1 ≠ getTimestampedFilename base ext d2)) := by
  have hdot : ("." : String).data = ['.'] := rfl
  have hund : ("_" : String).data = ['_'] := rfl
  constructor
  · intro h8
    have heq : ∀ d, ValidJsDate d →
        getTimestampedFilename base ext d = base ++ hhmmss d ++ "." ++ ext := by
      intro d hv
      unfold getTimestampedFilename
      rw [if_pos h8]
      dsimp only
      rw [substring9_eq_hhmmss d hv]
    refine ⟨heq d1 hv1, ?_⟩
    intro hsame hne hcontra
    rw [heq d1 hv1, heq d2 hv2] at hcontra
    have hdata := congrArg String.data hcontra
    simp only [String.data_append, List.append_assoc, hdot,
      List.singleton_append] at hdata
    have h1 := List.append_cancel_left hdata
    have h2 := List.append_cancel_right h1
    exact hne (hhmmss_inj d1 d2 hv1 hv2 hsame (String.ext h2))
  · intro h8
    have heq : ∀ d, getTimestampedFilename base ext d =
        base ++ "_" ++ getFormattedDateTime d ++ "." ++ ext := by
      intro d
      unfold getTimestampedFilename
      rw [if_neg (by simp [h8])]
    refine ⟨heq d1, ?_⟩
    intro hne hcontra
    rw [heq d1, heq d2] at hcontra
    have hdata := congrArg String.data hcontra
    simp only [String.data_append, List.append_assoc, hdot, hund,
      List.singleton_append] at hdata
    have h1 := List.append_cancel_left hdata
    have h2 := List.append_cancel_right h1
    injection h2 with hu h3
    exact hne (fmt_inj d1 d2 hv1 hv2 (String.ext h3))

/-- C8 (counterexample): for a base name containing an 8-digit token,
two clock readings in different wall-clock seconds (one day apart, same
time of day) produce identical output, contradicting the claim that the
appended stamps must differ. -/
theorem c8_counterexample :
    getTimestampedFilename "report20250101" "md" (JsDate.mk 2025 0 1 10 0 0) =
      getTimestampedFilename "report20250101" "md" (JsDate.mk 2025 0 2 10 0 0) ∧
    JsDate.mk 2025 0 1 10 0 0 ≠ JsDate.mk 2025 0 2 10 0 0 ∧
    getTimestampedFilename "report20250101" "md" (JsDate.mk 2025 0 1 10 0 0) =
      "report20250101100000.md" :=
  ⟨rfl, by decide, rfl⟩

/-- Witness for C8's amended statement at concrete clock readings one
second apart. -/
theorem c8_amended_witness :
    getTimestampedFilename "report" "md" (JsDate.mk 2025 0 1 10 0 0) ≠
      getTimestampedFilename "report" "md" (JsDate.mk 2025 0 1 10 0 1) ∧
    getTimestampedFilename "report20250101" "md" (JsDate.mk 2025 0 1 10 0 0) ≠
      getTimestampedFilename "report20250101" "md" (JsDate.mk 2025 0 1 10 0 1) := by
  have h1 := (c8_amended "report" "md" (JsDate.mk 2025 0 1 10 0 0)
      (JsDate.mk 2025 0 1 10 0 1) (by unfold ValidJsDate; decide)
      (by unfold ValidJsDate; decide)).2 rfl
  have h2 := (c8_amended "report20250101" "md" (JsDate.mk 2025 0 1 10 0 0)
      (JsDate.mk 2025 0 1 10 0 1) (by unfold ValidJsDate; decide)
      (by unfold ValidJsDate; decide)).1 rfl
  exact ⟨h1.2 (by decide), h2.2 ⟨rfl, rfl, rfl⟩ (by decide)⟩

end Spec2Proof
